import Mathlib

/-!
Verification of `pipeline/train/instruction_following.py` (Otter training
script): the conversation label masker, the training-step tail, the
checkpoint save/resume logic, the schedule arithmetic and the embedding
gradient restriction, shallowly embedded over lists and exact arithmetic.
-/

namespace Otter

/-! ## Conversation label masker (train_one_epoch, lines 79-114)

A batch row is a list of token ids.  Torch tensors of token ids become
`List Int` so that the ignore sentinel `-100` lives in the same carrier as
the token ids, exactly as in the mutated `labels` tensor. -/

/-- Embeds lines 80-81 restricted to the padding part: `labels = input_ids.clone()`
followed by `labels[labels == tokenizer.pad_token_id] = -100`. -/
def padMask (pad : Int) (tokens : List Int) : List Int :=
  tokens.map (fun t => if t = pad then -100 else t)

/-- Embeds line 81, `labels[:, 0] = -100`, on one row (after padding masking). -/
def firstMask (pad : Int) (tokens : List Int) : List Int :=
  (padMask pad tokens).set 0 (-100)

/-- Embeds line 94, `endofchunk_idxs = torch.where(labels[i] == endofchunk_token_id)[0]`:
the ascending list of indices of `l` holding `eoc`.  (The analogous
`media_idxs` of line 95 is computed by the script but never used.) -/
def eocIndices (eoc : Int) (l : List Int) : List Nat :=
  (List.range l.length).filter (fun i => decide (l.getD i 0 = eoc))

/-- Embeds the two suppression while-loops (lines 98-101 and 105-111).
Starting at `idx`, walk forward while the current label differs from `ans`,
overwriting with `-100`; when `exemptMedia` is true (the per-turn scan of
lines 105-111) a position currently holding `media` is skipped (`pass`)
instead of overwritten.  `fuel` bounds the walk; every caller passes at
least `l.length`, which dominates the loop bound `token_idx < labels.shape[1]`. -/
def suppressLoop (ans media : Int) (exemptMedia : Bool) :
    Nat → List Int → Nat → List Int
  | 0, l, _ => l
  | fuel + 1, l, idx =>
    if idx < l.length then
      if l.getD idx 0 = ans then l
      else if exemptMedia = true ∧ l.getD idx 0 = media then
        suppressLoop ans media exemptMedia fuel l (idx + 1)
      else
        suppressLoop ans media exemptMedia fuel (l.set idx (-100)) (idx + 1)
    else l

/-- Embeds lines 98-101: suppress every position before the first answer marker. -/
def afterFirstScan (pad media ans : Int) (tokens : List Int) : List Int :=
  let l := firstMask pad tokens
  suppressLoop ans media false l.length l 0

/-- Runs the per-turn suppression loop of lines 105-111 once per turn-end
index, threading the mutated labels through. -/
def eocFold (ans media : Int) (idxs : List Nat) (acc : List Int) : List Int :=
  idxs.foldl (fun acc i => suppressLoop ans media true acc.length acc (i + 1)) acc

/-- Embeds lines 104-111: for each turn-end index (computed on the
pad-and-position-0 masked labels, before the first scan mutates them, as in
the script), suppress from the following position up to the next answer
marker, skipping positions that currently hold the media marker. -/
def afterEocScans (pad media eoc ans : Int) (tokens : List Int) : List Int :=
  eocFold ans media (eocIndices eoc (firstMask pad tokens))
    (afterFirstScan pad media ans tokens)

/-- Embeds the whole per-row label construction of lines 79-114, ending with
line 113 `labels[labels == answer_token_id] = -100` and line 114
`labels[labels == media_token_id] = -100`. -/
def maskRow (pad media eoc ans : Int) (tokens : List Int) : List Int :=
  ((afterEocScans pad media eoc ans tokens).map
      (fun t => if t = ans then -100 else t)).map
    (fun t => if t = media then -100 else t)

/-! ### Basic list-access helpers -/

theorem getD_set_self (l : List Int) (i : Nat) (a d : Int) (h : i < l.length) :
    (l.set i a).getD i d = a := by
  rw [List.getD_eq_getElem _ _ (by simpa using h)]
  exact List.getElem_set_self (by simpa using h)

theorem getD_set_ne (l : List Int) (i j : Nat) (a d : Int) (h : i ≠ j) :
    (l.set i a).getD j d = l.getD j d := by
  rw [List.getD_eq_getD_get?, List.getD_eq_getD_get?, List.get?_eq_getElem?,
    List.get?_eq_getElem?, List.getElem?_set_ne h]

theorem getD_map_lt (f : Int → Int) (l : List Int) (j : Nat) (d e : Int)
    (h : j < l.length) :
    (l.map f).getD j d = f (l.getD j e) := by
  rw [List.getD_eq_getElem _ _ (by simpa using h), List.getD_eq_getElem _ _ h]
  simp

/-! ### suppressLoop invariants -/

theorem suppressLoop_length (ans media : Int) (ex : Bool) :
    ∀ (fuel : Nat) (l : List Int) (idx : Nat),
      (suppressLoop ans media ex fuel l idx).length = l.length := by
  intro fuel
  induction fuel with
  | zero => intro l idx; rfl
  | succ n ih =>
    intro l idx
    simp only [suppressLoop]
    split
    · split
      · rfl
      · split
        · exact ih l (idx + 1)
        · rw [ih]; simp
    · rfl

/-- The loops never touch a position strictly before the start index. -/
theorem suppressLoop_getD_lt (ans media : Int) (ex : Bool) :
    ∀ (fuel : Nat) (l : List Int) (idx j : Nat), j < idx →
      (suppressLoop ans media ex fuel l idx).getD j 0 = l.getD j 0 := by
  intro fuel
  induction fuel with
  | zero => intro l idx j _; rfl
  | succ n ih =>
    intro l idx j hj
    simp only [suppressLoop]
    split
    · split
      · rfl
      · split
        · exact ih l (idx + 1) j (Nat.lt_succ_of_lt hj)
        · rw [ih _ (idx + 1) j (Nat.lt_succ_of_lt hj),
            getD_set_ne _ _ _ _ _ (by omega)]
    · rfl

/-- The loops only ever write the ignore sentinel: every output position is
either the input position's value or `-100`. -/
theorem suppressLoop_getD_mem (ans media : Int) (ex : Bool) :
    ∀ (fuel : Nat) (l : List Int) (idx j : Nat),
      (suppressLoop ans media ex fuel l idx).getD j 0 = l.getD j 0 ∨
      (suppressLoop ans media ex fuel l idx).getD j 0 = -100 := by
  intro fuel
  induction fuel with
  | zero => intro l idx j; exact Or.inl rfl
  | succ n ih =>
    intro l idx j
    simp only [suppressLoop]
    split
    · split
      · exact Or.inl rfl
      · split
        · exact ih l (idx + 1) j
        · rcases ih (l.set idx (-100)) (idx + 1) j with h | h
          · by_cases hij : idx = j
            · subst hij
              rename_i hlt _ _
              rw [h, getD_set_self _ _ _ _ hlt]
              exact Or.inr rfl
            · rw [h, getD_set_ne _ _ _ _ _ hij]
              exact Or.inl rfl
          · exact Or.inr h
    · exact Or.inl rfl

/-- A position already holding the ignore sentinel keeps it. -/
theorem suppressLoop_getD_ignored (ans media : Int) (ex : Bool)
    (fuel : Nat) (l : List Int) (idx j : Nat) (h : l.getD j 0 = -100) :
    (suppressLoop ans media ex fuel l idx).getD j 0 = -100 := by
  rcases suppressLoop_getD_mem ans media ex fuel l idx j with h2 | h2
  · rw [h2, h]
  · exact h2

/-- The unexempted scan (the first-answer scan of lines 98-101), run on labels
containing no occurrence of `ans` from `idx` on, writes the sentinel into
every position from `idx` to the end. -/
theorem suppressLoop_no_ans (ans media : Int) :
    ∀ (fuel : Nat) (l : List Int) (idx : Nat),
      l.length - idx ≤ fuel →
      (∀ k, idx ≤ k → k < l.length → l.getD k 0 ≠ ans) →
      ∀ j, idx ≤ j → j < l.length →
        (suppressLoop ans media false fuel l idx).getD j 0 = -100 := by
  intro fuel
  induction fuel with
  | zero => intro l idx hfuel _ j hj1 hj2; omega
  | succ n ih =>
    intro l idx hfuel hne j hj1 hj2
    simp only [suppressLoop]
    split
    · rename_i hlt
      split
      · rename_i heq
        exact absurd heq (hne idx le_rfl hlt)
      · split
        · rename_i hmedia
          exact absurd hmedia.1 (by simp)
        · have hlen2 : (l.set idx (-100)).length = l.length := by simp
          have hne2 : ∀ k, idx + 1 ≤ k → k < (l.set idx (-100)).length →
              (l.set idx (-100)).getD k 0 ≠ ans := by
            intro k hk1 hk2
            rw [getD_set_ne _ _ _ _ _ (by omega)]
            exact hne k (by omega) (by omega)
          rcases Nat.eq_or_lt_of_le hj1 with rfl | hj
          · exact suppressLoop_getD_ignored _ _ _ _ _ _ _
              (getD_set_self _ _ _ _ hlt)
          · exact ih (l.set idx (-100)) (idx + 1) (by omega) hne2 j hj (by omega)
    · omega

theorem eocFold_length (ans media : Int) :
    ∀ (idxs : List Nat) (acc : List Int),
      (eocFold ans media idxs acc).length = acc.length := by
  intro idxs
  induction idxs with
  | nil => intro acc; rfl
  | cons i rest ih =>
    intro acc
    simp only [eocFold, List.foldl_cons] at *
    rw [ih, suppressLoop_length]

theorem eocFold_getD_ignored (ans media : Int) :
    ∀ (idxs : List Nat) (acc : List Int) (j : Nat), acc.getD j 0 = -100 →
      (eocFold ans media idxs acc).getD j 0 = -100 := by
  intro idxs
  induction idxs with
  | nil => intro acc j h; exact h
  | cons i rest ih =>
    intro acc j h
    simp only [eocFold, List.foldl_cons] at *
    exact ih _ j (suppressLoop_getD_ignored _ _ _ _ _ _ _ h)

theorem eocFold_getD_mem (ans media : Int) :
    ∀ (idxs : List Nat) (acc : List Int) (j : Nat),
      (eocFold ans media idxs acc).getD j 0 = acc.getD j 0 ∨
      (eocFold ans media idxs acc).getD j 0 = -100 := by
  intro idxs
  induction idxs with
  | nil => intro acc j; exact Or.inl rfl
  | cons i rest ih =>
    intro acc j
    simp only [eocFold, List.foldl_cons] at *
    rcases ih (suppressLoop ans media true acc.length acc (i + 1)) j with h | h
    · rw [h]
      exact suppressLoop_getD_mem _ _ _ _ _ _ _
    · exact Or.inr h

/-! ### Lengths of the masking stages -/

theorem firstMask_length (pad : Int) (tokens : List Int) :
    (firstMask pad tokens).length = tokens.length := by
  simp [firstMask, padMask]

theorem afterFirstScan_length (pad media ans : Int) (tokens : List Int) :
    (afterFirstScan pad media ans tokens).length = tokens.length := by
  rw [afterFirstScan, suppressLoop_length, firstMask_length]

theorem afterEocScans_length (pad media eoc ans : Int) (tokens : List Int) :
    (afterEocScans pad media eoc ans tokens).length = tokens.length := by
  rw [afterEocScans, eocFold_length, afterFirstScan_length]

theorem maskRow_length (pad media eoc ans : Int) (tokens : List Int) :
    (maskRow pad media eoc ans tokens).length = tokens.length := by
  rw [maskRow, List.length_map, List.length_map, afterEocScans_length]

/-! ### Pointwise facts about maskRow -/

/-- When `ans` occurs nowhere, the first scan reaches the end of the row and
ignores every position. -/
theorem maskRow_getD_no_ans (pad media eoc ans : Int) (tokens : List Int)
    (hans : ans ≠ -100) (hmem : ans ∉ tokens) (j : Nat) (hj : j < tokens.length) :
    (maskRow pad media eoc ans tokens).getD j 0 = -100 := by
  have hfm : ∀ k, k < (firstMask pad tokens).length →
      (firstMask pad tokens).getD k 0 ≠ ans := by
    intro k hk
    rw [firstMask_length] at hk
    by_cases hk0 : 0 = k
    · rw [firstMask, ← hk0,
        getD_set_self _ _ _ _ (by rw [padMask, List.length_map]; omega)]
      exact fun h => hans h.symm
    · rw [firstMask, getD_set_ne _ _ _ _ _ hk0, padMask, getD_map_lt _ _ _ _ 0 hk]
      split
      · exact fun h => hans h.symm
      · intro h
        refine hmem ?_
        rw [← h, List.getD_eq_getElem _ _ hk]
        exact List.getElem_mem hk
  have h2 : (afterFirstScan pad media ans tokens).getD j 0 = -100 := by
    rw [afterFirstScan]
    refine suppressLoop_no_ans ans media _ _ 0 (by omega) (fun k _ hk => hfm k hk)
      j (Nat.zero_le j) ?_
    rw [firstMask_length]; exact hj
  have h3 : (afterEocScans pad media eoc ans tokens).getD j 0 = -100 := by
    rw [afterEocScans]
    exact eocFold_getD_ignored _ _ _ _ _ h2
  rw [maskRow,
    getD_map_lt _ _ _ _ 0 (by rw [List.length_map, afterEocScans_length]; exact hj),
    getD_map_lt _ _ _ _ 0 (by rw [afterEocScans_length]; exact hj), h3]
  simp

/-- After the two scans, every position still holds either the sentinel or its
original token id (positions are only ever overwritten with `-100`). -/
theorem afterEocScans_getD_mem (pad media eoc ans : Int) (tokens : List Int)
    (j : Nat) (hj : j < tokens.length) :
    (afterEocScans pad media eoc ans tokens).getD j 0 = -100 ∨
    (afterEocScans pad media eoc ans tokens).getD j 0 = tokens.getD j 0 := by
  have hpadm : (padMask pad tokens).getD j 0 = -100 ∨
      (padMask pad tokens).getD j 0 = tokens.getD j 0 := by
    rw [padMask, getD_map_lt _ _ _ _ 0 hj]
    split
    · exact Or.inl rfl
    · exact Or.inr rfl
  have hfm : (firstMask pad tokens).getD j 0 = -100 ∨
      (firstMask pad tokens).getD j 0 = tokens.getD j 0 := by
    rw [firstMask]
    by_cases h0 : 0 = j
    · rw [← h0]
      exact Or.inl (getD_set_self _ _ _ _ (by rw [padMask, List.length_map]; omega))
    · rw [getD_set_ne _ _ _ _ _ h0]
      exact hpadm
  have hfs : (afterFirstScan pad media ans tokens).getD j 0 = -100 ∨
      (afterFirstScan pad media ans tokens).getD j 0 = tokens.getD j 0 := by
    rw [afterFirstScan]
    rcases suppressLoop_getD_mem ans media false (firstMask pad tokens).length
        (firstMask pad tokens) 0 j with h | h
    · rw [h]; exact hfm
    · exact Or.inl h
  rw [afterEocScans]
  rcases eocFold_getD_mem ans media (eocIndices eoc (firstMask pad tokens))
      (afterFirstScan pad media ans tokens) j with h | h
  · rw [h]; exact hfs
  · exact Or.inl h

/-! ### Label-masker claim theorems -/

/-- C4: for every input token sequence containing no occurrence of the answer
marker, the label masker outputs a sequence in which every position is the
ignored sentinel `-100`. -/
theorem mask_no_answer_all_ignored (pad media eoc ans : Int) (tokens : List Int)
    (hans : ans ≠ -100) (hmem : ans ∉ tokens) :
    maskRow pad media eoc ans tokens = List.replicate tokens.length (-100) := by
  apply List.ext_getElem
  · rw [maskRow_length, List.length_replicate]
  · intro i h1 h2
    rw [List.getElem_replicate, ← List.getD_eq_getElem _ 0 h1]
    exact maskRow_getD_no_ans pad media eoc ans tokens hans hmem i
      (by rw [← maskRow_length pad media eoc ans tokens]; exact h1)

/-- Witness for C4 at a concrete marker-free row. -/
theorem mask_no_answer_all_ignored_witness :
    maskRow 0 1 2 3 [5, 6, 7] = List.replicate 3 (-100) :=
  mask_no_answer_all_ignored 0 1 2 3 [5, 6, 7] (by decide) (by decide)

/-- C5: for every input token sequence, position 0 and every position whose
input token equals the padding id are the ignored sentinel in the output. -/
theorem mask_pos0_and_pad_ignored (pad media eoc ans : Int) (tokens : List Int)
    (j : Nat) (hj : j < tokens.length) (hcase : j = 0 ∨ tokens.getD j 0 = pad) :
    (maskRow pad media eoc ans tokens).getD j 0 = -100 := by
  have h1 : (firstMask pad tokens).getD j 0 = -100 := by
    by_cases h0 : 0 = j
    · rw [firstMask, ← h0]
      exact getD_set_self _ _ _ _ (by rw [padMask, List.length_map]; omega)
    · rcases hcase with rfl | hpad
      · exact absurd rfl h0
      · rw [firstMask, getD_set_ne _ _ _ _ _ h0, padMask, getD_map_lt _ _ _ _ 0 hj,
          hpad, if_pos rfl]
  have h2 : (afterFirstScan pad media ans tokens).getD j 0 = -100 := by
    rw [afterFirstScan]
    exact suppressLoop_getD_ignored _ _ _ _ _ _ _ h1
  have h3 : (afterEocScans pad media eoc ans tokens).getD j 0 = -100 := by
    rw [afterEocScans]
    exact eocFold_getD_ignored _ _ _ _ _ h2
  rw [maskRow,
    getD_map_lt _ _ _ _ 0 (by rw [List.length_map, afterEocScans_length]; exact hj),
    getD_map_lt _ _ _ _ 0 (by rw [afterEocScans_length]; exact hj), h3]
  simp

/-- Witness for C5: the padding position of a concrete row is ignored. -/
theorem mask_pos0_and_pad_ignored_witness :
    (maskRow 0 1 2 3 [9, 0, 4]).getD 1 0 = -100 :=
  mask_pos0_and_pad_ignored 0 1 2 3 [9, 0, 4] 1 (by decide) (Or.inr (by decide))

/-- C6: every position holding the media marker in the input is the ignored
sentinel in the output, even though such positions are exempted from
suppression during the per-turn scan. -/
theorem mask_media_ignored (pad media eoc ans : Int) (tokens : List Int)
    (j : Nat) (hj : j < tokens.length) (hmedia : tokens.getD j 0 = media) :
    (maskRow pad media eoc ans tokens).getD j 0 = -100 := by
  rw [maskRow,
    getD_map_lt _ _ _ _ 0 (by rw [List.length_map, afterEocScans_length]; exact hj),
    getD_map_lt _ _ _ _ 0 (by rw [afterEocScans_length]; exact hj)]
  rcases afterEocScans_getD_mem pad media eoc ans tokens j hj with h | h
  · rw [h]; simp
  · rw [h, hmedia]
    by_cases hma : media = ans <;> simp [hma]

/-- Witness for C6: a media-marker position of a concrete row is ignored. -/
theorem mask_media_ignored_witness :
    (maskRow 0 1 2 3 [9, 1, 4]).getD 1 0 = -100 :=
  mask_media_ignored 0 1 2 3 [9, 1, 4] 1 (by decide) (by decide)

/-- C10: every output position is either the ignored sentinel or exactly the
input token id at the same position; the masker never writes any other value. -/
theorem mask_labels_preserve_or_ignore (pad media eoc ans : Int) (tokens : List Int)
    (j : Nat) (hj : j < tokens.length) :
    (maskRow pad media eoc ans tokens).getD j 0 = -100 ∨
    (maskRow pad media eoc ans tokens).getD j 0 = tokens.getD j 0 := by
  rw [maskRow,
    getD_map_lt _ _ _ _ 0 (by rw [List.length_map, afterEocScans_length]; exact hj),
    getD_map_lt _ _ _ _ 0 (by rw [afterEocScans_length]; exact hj)]
  rcases afterEocScans_getD_mem pad media eoc ans tokens j hj with h | h
  · rw [h]; left; simp
  · rw [h]
    by_cases hx1 : tokens.getD j 0 = ans
    · left; rw [if_pos hx1, ite_self]
    · by_cases hx2 : tokens.getD j 0 = media
      · left; rw [if_neg hx1, if_pos hx2]
      · right; rw [if_neg hx1, if_neg hx2]

/-- Witness for C10: a supervised position of a concrete row keeps its id. -/
theorem mask_labels_preserve_or_ignore_witness :
    (maskRow 0 1 2 3 [9, 3, 4]).getD 2 0 = -100 ∨
    (maskRow 0 1 2 3 [9, 3, 4]).getD 2 0 = ([9, 3, 4] : List Int).getD 2 0 :=
  mask_labels_preserve_or_ignore 0 1 2 3 [9, 3, 4] 2 (by decide)

/-- C7 counterexample: on the 13-token scenario (media marker 500, turn-end
marker 600, answer marker 700, padding id 0, user text 85/115/101/114/71,
second-turn instruction token 802 at position 10, answers 801 and 803), the
output is NOT ignored everywhere outside the two answer positions 8 and 12:
position 10 keeps its token id, because no turn-end marker precedes the
second turn in this sequence. -/
theorem mask_scenario_counterexample :
    ¬ (∀ j, j < 13 → j ≠ 8 → j ≠ 12 →
        (maskRow 0 500 600 700
          [500, 85, 115, 101, 114, 600, 71, 700, 801, 500, 802, 700, 803]).getD j 0
          = -100) := by
  intro h
  exact absurd (h 10 (by omega) (by omega) (by omega)) (by decide)

/-- C7 amended: on the scenario row the output ignores every position except
those of A1 (801, position 8), U2 (802, position 10) and A2 (803, position
12), which keep their original ids; in particular the second media marker
(position 9) is ignored.  U2 stays supervised because the sequence has no
turn-end marker between the first answer span and the second turn, so no
per-turn scan covers it. -/
theorem mask_scenario_amended :
    maskRow 0 500 600 700
        [500, 85, 115, 101, 114, 600, 71, 700, 801, 500, 802, 700, 803] =
      [-100, -100, -100, -100, -100, -100, -100, -100, 801, -100, 802, -100, 803] := by
  decide

/-! ## Checkpoint discovery and resume (main, lines 549-566)

The block is modelled operationally: the glob result becomes the list of
epoch numbers parsed from `checkpoint_<epoch>.pt` filenames, Python prints
become a log list, and reading a local variable that the enclosing function
has not (yet) assigned becomes an `UnboundLocalError` outcome, exactly as in
CPython. -/

/-- A Python exception raised by the resume block. -/
inductive PyExc where
  | unboundLocal (name : String)
  deriving DecidableEq, Repr

/-- Result of running the resume block: the messages printed so far, and
either the `resume_from_epoch` reached or the exception raised. -/
structure ResumeResult where
  logs : List String
  outcome : Except PyExc Nat
  deriving Repr

/-- Embeds line 557: candidates sorted by the numeric suffix, last taken. -/
def maxEpochOf : List Nat → Nat
  | [] => 0
  | e :: es => max e (maxEpochOf es)

/-- Embeds main's checkpoint-discovery block (lines 549-566).  When resume is
requested and the save directory exists, the script prints a message if the
glob found nothing, prints the found path otherwise — and then falls through
to lines 560-566 unconditionally.  There it reads the local
`resume_from_checkpoint_path` (assigned only in the non-empty branch) and the
locals `optimizer` and `lr_scheduler` (assigned only later, at lines 568 and
581-594), so the empty case raises `UnboundLocalError` on
`resume_from_checkpoint_path` and the non-empty case raises it on
`optimizer`. -/
def resumeBlock (dirExists resumeRequested : Bool) (checkpointEpochs : List Nat) :
    ResumeResult :=
  if dirExists = true ∧ resumeRequested = true then
    if checkpointEpochs.isEmpty then
      { logs := ["Found no checkpoints for run."],
        outcome := .error (.unboundLocal "resume_from_checkpoint_path") }
    else
      { logs := ["Found checkpoint " ++ toString (maxEpochOf checkpointEpochs)
          ++ " for run."],
        outcome := .error (.unboundLocal "optimizer") }
  else
    { logs := [], outcome := .ok 0 }

/-- C1 (code bug): with resume requested and an existing save directory that
contains zero `checkpoint_*.pt` candidates, the script does print the
"no checkpoints" report, but then crashes on the unassigned local
`resume_from_checkpoint_path` instead of proceeding to train from epoch 0. -/
theorem resume_empty_dir_reports_then_crashes :
    (resumeBlock true true []).logs = ["Found no checkpoints for run."] ∧
    (resumeBlock true true []).outcome
      = .error (.unboundLocal "resume_from_checkpoint_path") := by
  constructor <;> rfl

/-! ## Checkpoint retention (main, lines 625-644)

The per-epoch save routine on the coordinating worker is modelled as the
list of file-system events it performs on the `checkpoint_<epoch>.pt`
files; the disk is the set of epoch numbers whose checkpoint file exists.
A `write` event is taken as the point at which the new file is durably on
disk (the script itself adds no fsync/atomic-rename hardening). -/

/-- A file-system event on the per-epoch checkpoint files. -/
inductive FsEvent where
  | write (epoch : Nat)
  | remove (epoch : Nat)
  deriving DecidableEq, Repr

/-- Embeds lines 636-642 for one epoch: `accelerator.save` of
`checkpoint_<epoch>.pt`, then, iff `delete_previous_checkpoint` is set and
`epoch > 0`, `os.remove` of `checkpoint_<epoch-1>.pt`. -/
def saveEvents (deletePrevious : Bool) (epoch : Nat) : List FsEvent :=
  [.write epoch] ++
    (if deletePrevious = true ∧ 0 < epoch then [.remove (epoch - 1)] else [])

/-- Effect of one event on the set of existing checkpoint files. -/
def applyEvent (disk : Finset ℕ) : FsEvent → Finset ℕ
  | .write e => insert e disk
  | .remove e => disk.erase e

/-- Effect of a list of events, in order. -/
def applyEvents (events : List FsEvent) (disk : Finset ℕ) : Finset ℕ :=
  events.foldl applyEvent disk

/-- Checkpoint files on disk after the save routines of epochs `0..n-1`. -/
def diskAfterEpochs (deletePrevious : Bool) (n : Nat) : Finset ℕ :=
  (List.range n).foldl (fun d e => applyEvents (saveEvents deletePrevious e) d) ∅

theorem diskAfterEpochs_succ (deletePrevious : Bool) (n : Nat) :
    diskAfterEpochs deletePrevious (n + 1) =
      applyEvents (saveEvents deletePrevious n) (diskAfterEpochs deletePrevious n) := by
  rw [diskAfterEpochs, diskAfterEpochs, List.range_succ, List.foldl_append,
    List.foldl_cons, List.foldl_nil]

/-- With retention on, the steady state between epoch boundaries is exactly
the latest checkpoint. -/
theorem diskAfterEpochs_retention (n : Nat) (h : 1 ≤ n) :
    diskAfterEpochs true n = {n - 1} := by
  induction n with
  | zero => omega
  | succ m ih =>
    rw [diskAfterEpochs_succ]
    rcases Nat.eq_or_lt_of_le h with h1 | h1
    · have hm : m = 0 := by omega
      subst hm
      rfl
    · have hm : 1 ≤ m := by omega
      rw [ih hm, saveEvents, if_pos ⟨rfl, by omega⟩]
      show (insert m ({m - 1} : Finset ℕ)).erase (m - 1) = {m + 1 - 1}
      rw [Finset.erase_insert_of_ne (by omega), Finset.erase_singleton]
      simp

/-- C3: with `delete_previous_checkpoint` enabled, immediately after the save
of epoch N's file completes (the write event of epoch N's save routine, run
on the disk state left by epochs 0..N-1), exactly the checkpoint files for
epochs N and N-1 exist on disk; and epoch N's save routine performs the
deletion of epoch N-1's file strictly after that write. -/
theorem checkpoint_retention_window (N : Nat) (h : 1 ≤ N) :
    applyEvent (diskAfterEpochs true N) (.write N) = {N - 1, N} ∧
    saveEvents true N = [.write N, .remove (N - 1)] := by
  constructor
  · rw [diskAfterEpochs_retention N h]
    show insert N ({N - 1} : Finset ℕ) = {N - 1, N}
    rw [Finset.pair_comm]
  · rw [saveEvents, if_pos ⟨rfl, by omega⟩]
    rfl

/-- Witness for C3 at epoch 2. -/
theorem checkpoint_retention_window_witness :
    applyEvent (diskAfterEpochs true 2) (.write 2) = {1, 2} ∧
    saveEvents true 2 = [.write 2, .remove 1] :=
  checkpoint_retention_window 2 (by decide)

/-! ## Training-step tail (train_one_epoch, lines 150-155) -/

/-- An operation of the training-step tail. -/
inductive TrainOp where
  | clipGrad (maxNorm : ℚ)
  | optStep
  | schedStep
  | zeroGrad
  deriving DecidableEq, Repr

/-- Embeds lines 150-155: the calls the script issues on every micro-step.
`accelerator.clip_grad_norm_(model.parameters(), 1.0)` is guarded by
`accelerator.sync_gradients`; `optimizer.step()`, `lr_scheduler.step()` and
`optimizer.zero_grad()` are called unconditionally. -/
def stepTailCalls (syncGradients : Bool) : List TrainOp :=
  (if syncGradients = true then [.clipGrad 1] else []) ++
    [.optStep, .schedStep, .zeroGrad]

/-- Modelled from the spec: the accumulation-aware execution context — the
external distributed-execution collaborator whose prepare wrapping wraps the
optimizer and the scheduler (spec sections 2, 4.4 and 6); its wrappers are
not part of this repository's source — performs a called optimizer step,
scheduler step or gradient clearing only when its gradient-sync-boundary
signal is set, and silently skips the call otherwise; a clip call is
executed as issued (its call site is already guarded by the same signal). -/
def effectiveOps (syncGradients : Bool) (calls : List TrainOp) : List TrainOp :=
  calls.filter (fun c => match c with
    | .clipGrad _ => true
    | .optStep => syncGradients
    | .schedStep => syncGradients
    | .zeroGrad => syncGradients)

/-- Operations actually performed by one micro-step's tail. -/
def effectiveStepTail (syncGradients : Bool) : List TrainOp :=
  effectiveOps syncGradients (stepTailCalls syncGradients)

/-- C2: gradient clipping to norm threshold 1.0, the optimizer step, the
scheduler step and the gradient clearing are all performed exactly when the
execution context signals an optimizer-sync boundary, and none of them is
performed on a micro-step that is not a sync boundary. -/
theorem step_tail_ops_iff_sync :
    ∀ syncGradients : Bool,
      effectiveStepTail syncGradients =
        if syncGradients = true then
          [.clipGrad 1, .optStep, .schedStep, .zeroGrad]
        else [] := by
  decide

/-! ## Schedule configuration (main, lines 547, 573-579)

Python ints and floats both become exact rationals; `//` becomes the floor
of the exact quotient, which coincides with Python floor division whenever
the float operands are exactly representable (true at every concrete input
used below). -/

/-- Embeds lines 573-579 of main.  With `warmup_steps_ratio` supplied,
line 573 sets `args.warmup_steps = total_training_steps * args.warmup_steps_ratio`
(a float product — no rounding); lines 575-576 floor-divide the warmup value
and `total_training_steps` by `gradient_accumulation_steps`; lines 577-579
multiply both by the process count in DeepSpeed mode.  Returns
`(num_warmup_steps, num_training_steps)`. -/
def scheduleCounts (totalTrainingSteps warmupSteps : ℤ) (warmupStepsRatio : Option ℚ)
    (gradientAccumulationSteps : ℤ) (deepspeed : Bool) (numProcesses : ℤ) : ℤ × ℤ :=
  let rawWarmup : ℚ :=
    match warmupStepsRatio with
    | some r => (totalTrainingSteps : ℚ) * r
    | none => (warmupSteps : ℚ)
  let numWarmup : ℤ := Int.floor (rawWarmup / (gradientAccumulationSteps : ℚ))
  let numTraining : ℤ := totalTrainingSteps / gradientAccumulationSteps
  if deepspeed = true then (numWarmup * numProcesses, numTraining * numProcesses)
  else (numWarmup, numTraining)

/-- Modelled from the spec: the Schedule Configurator as section 4.3 words
it, for comparison with the source — when a ratio is supplied,
`raw_warmup = round(ratio * raw_total)` is computed first, and both
effective counts are integer divisions discarding the remainder. -/
def scheduleCountsSpec (totalTrainingSteps warmupSteps : ℤ)
    (warmupStepsRatio : Option ℚ) (gradientAccumulationSteps : ℤ)
    (deepspeed : Bool) (numProcesses : ℤ) : ℤ × ℤ :=
  let rawWarmup : ℤ :=
    match warmupStepsRatio with
    | some r => round ((totalTrainingSteps : ℚ) * r)
    | none => warmupSteps
  let numWarmup : ℤ := rawWarmup / gradientAccumulationSteps
  let numTraining : ℤ := totalTrainingSteps / gradientAccumulationSteps
  if deepspeed = true then (numWarmup * numProcesses, numTraining * numProcesses)
  else (numWarmup, numTraining)

/-- C8 counterexample: at warmup ratio 1/2, raw_total 7, accumulation factor
4 (whose float images are all exact, so the rational model coincides with
the script's float arithmetic), the script computes floor(3.5 / 4) = 0
effective warmup steps, while the claimed round-first rule gives
round(3.5) / 4 = 1: the code does not compute `round(ratio * raw_total)`
before dividing. -/
theorem schedule_round_counterexample :
    (scheduleCounts 7 0 (some (1 / 2)) 4 false 1).1 = 0 ∧
    (scheduleCountsSpec 7 0 (some (1 / 2)) 4 false 1).1 = 1 ∧
    (scheduleCounts 7 0 (some (1 / 2)) 4 false 1).1 ≠
      (scheduleCountsSpec 7 0 (some (1 / 2)) 4 false 1).1 := by
  refine ⟨?_, ?_, ?_⟩
  · norm_num [scheduleCounts]
  · norm_num [scheduleCountsSpec, round_eq]
  · norm_num [scheduleCounts, scheduleCountsSpec, round_eq]

/-- C8 amended: with a warmup ratio supplied, the script floor-divides the
unrounded product ratio * raw_total by the accumulation factor (no
intermediate rounding); the effective total is the floor division of
raw_total by the accumulation factor, so it recovers raw_total up to the
discarded remainder; and the scenario accumulation_factor 4, ratio 1/10,
raw_total 1000 in non-DeepSpeed mode yields effective counts (25, 250). -/
theorem schedule_amended (total warmup nproc : ℤ) (r : ℚ) (gas : ℤ)
    (hg : 0 < gas) :
    (scheduleCounts total warmup (some r) gas false nproc).1
        = Int.floor ((total : ℚ) * r / (gas : ℚ)) ∧
    gas * (scheduleCounts total warmup (some r) gas false nproc).2 ≤ total ∧
    total < gas * ((scheduleCounts total warmup (some r) gas false nproc).2 + 1) ∧
    scheduleCounts 1000 0 (some (1 / 10)) 4 false 1 = (25, 250) := by
  have h1 := Int.ediv_add_emod total gas
  have h2 := Int.emod_nonneg total (ne_of_gt hg)
  have h3 := Int.emod_lt_of_pos total hg
  refine ⟨rfl, ?_, ?_, by norm_num [scheduleCounts]⟩
  · simp only [scheduleCounts, if_neg (by simp : ¬(false = true))]
    omega
  · simp only [scheduleCounts, if_neg (by simp : ¬(false = true))]
    have : gas * (total / gas + 1) = gas * (total / gas) + gas := by ring
    omega

/-- Witness for C8's amended theorem at the scenario input. -/
theorem schedule_amended_witness :
    (scheduleCounts 1000 0 (some (1 / 10)) 4 false 1).1
        = Int.floor ((1000 : ℚ) * (1 / 10) / ((4 : ℤ) : ℚ)) ∧
    (4 : ℤ) * (scheduleCounts 1000 0 (some (1 / 10)) 4 false 1).2 ≤ 1000 ∧
    (1000 : ℤ) < 4 * ((scheduleCounts 1000 0 (some (1 / 10)) 4 false 1).2 + 1) ∧
    scheduleCounts 1000 0 (some (1 / 10)) 4 false 1 = (25, 250) :=
  schedule_amended 1000 0 1 (1 / 10) 4 (by decide)

/-! ## Embedding-gradient restriction (train_one_epoch, lines 134-148)

A weight tensor's gradient becomes an optional matrix of exact rationals
(row index = token id); `None` stands for PyTorch's absent `.grad`.
Reading `.grad` of `None` inside `torch.zeros_like`, or indexing the mask
outside its rows, raises in Python, modelled as `Except.error`. -/

/-- The weight of an embedding (or lm_head) module. -/
structure EmbWeight where
  requiresGrad : Bool
  grad : Option (List (List ℚ))
  deriving Repr

/-- The gradient after multiplication by the zero mask of lines 136-140:
`zero_mask = torch.zeros_like(m.weight.grad)` with row `answer_token_id` set
to ones, then `m.weight.grad = m.weight.grad * zero_mask` elementwise.
`i0` is the index of the first row of `g`. -/
def zeroMaskApply (answerTokenId : Nat) : Nat → List (List ℚ) → List (List ℚ)
  | _, [] => []
  | i0, row :: rest =>
    row.map (fun x => x * (if i0 = answerTokenId then 1 else 0)) ::
      zeroMaskApply answerTokenId (i0 + 1) rest

/-- Embeds mask_embedding (lines 134-141): a no-op unless
`m.weight.requires_grad`; otherwise builds the zero mask (failing like the
Python if `.grad` is `None` or the protected row does not exist) and scales
the gradient by it. -/
def mask_embedding (answerTokenId : Nat) (m : EmbWeight) : Except String EmbWeight :=
  if m.requiresGrad = true then
    match m.grad with
    | none => .error "TypeError: zeros_like received None"
    | some g =>
      if answerTokenId < g.length then
        .ok { m with grad := some (zeroMaskApply answerTokenId 0 g) }
      else .error "IndexError: row out of range"
  else .ok m

/-- The language submodel as seen by lines 142-148: its class name and the
three modules that `mask_embedding` may be applied to. -/
structure LangEncoder where
  className : String
  wte : EmbWeight
  embed_tokens : EmbWeight
  lm_head : EmbWeight
  deriving Repr

/-- Embeds lines 142-148: when `args.mask_lm_head` is set, dispatch on the
language encoder's class name — MPT family applies `mask_embedding` to
`transformer.wte`, the Llama family to `model.embed_tokens` and `lm_head`,
any other family does nothing. -/
def maskLmHead (maskFlag : Bool) (answerTokenId : Nat) (enc : LangEncoder) :
    Except String LangEncoder :=
  if maskFlag = true then
    if enc.className = "MPTForCausalLM" ∨ enc.className = "MosaicGPT" then
      (mask_embedding answerTokenId enc.wte).map (fun w => { enc with wte := w })
    else if enc.className = "LlamaForCausalLM" then do
      let e ← mask_embedding answerTokenId enc.embed_tokens
      let h ← mask_embedding answerTokenId enc.lm_head
      .ok { enc with embed_tokens := e, lm_head := h }
    else .ok enc
  else .ok enc

theorem map_mul_one (l : List ℚ) : l.map (fun x => x * 1) = l := by
  have h : (fun x : ℚ => x * 1) = id := funext fun x => mul_one x
  rw [h, List.map_id]

theorem map_mul_zero (l : List ℚ) :
    l.map (fun x => x * 0) = List.replicate l.length 0 := by
  have h : (fun x : ℚ => x * 0) = Function.const ℚ (0 : ℚ) :=
    funext fun x => mul_zero x
  rw [h, List.map_const]

theorem zeroMaskApply_get? (ans : Nat) :
    ∀ (g : List (List ℚ)) (i0 j : Nat) (row : List ℚ), g.get? j = some row →
      (zeroMaskApply ans i0 g).get? j =
        some (if i0 + j = ans then row else List.replicate row.length 0) := by
  intro g
  induction g with
  | nil => intro i0 j row h; simp at h
  | cons r rest ih =>
    intro i0 j row h
    cases j with
    | zero =>
      simp only [List.get?] at h
      cases h
      simp only [zeroMaskApply, List.get?, Option.some.injEq, Nat.add_zero]
      by_cases hi : i0 = ans
      · rw [if_pos hi, map_mul_one, if_pos hi]
      · rw [if_neg hi, map_mul_zero, if_neg hi]
    | succ k =>
      simp only [List.get?] at h
      have := ih (i0 + 1) k row h
      simpa [zeroMaskApply, Nat.add_assoc, Nat.add_comm 1 k] using this

/-- C9: with the restriction flag on, (a) applying it through an MPT-family
encoder whose embedding gradient exists rescales that gradient so that every
row except the protected answer-token row becomes all zeros while the
protected row is unchanged; (b) the same holds for the Llama-family
embedding (and its lm_head); (c) for any other model family the whole
operation is a no-op, leaving every gradient unchanged. -/
theorem mask_lm_head_restricts (ans j : Nat) (enc : LangEncoder)
    (g g2 : List (List ℚ)) (row : List ℚ) :
    (g.get? j = some row →
      (zeroMaskApply ans 0 g).get? j =
        some (if j = ans then row else List.replicate row.length 0)) ∧
    ((enc.className = "MPTForCausalLM" ∨ enc.className = "MosaicGPT") →
      enc.wte.requiresGrad = true → enc.wte.grad = some g → ans < g.length →
      maskLmHead true ans enc =
        .ok { enc with wte := { enc.wte with grad := some (zeroMaskApply ans 0 g) } }) ∧
    (enc.className = "LlamaForCausalLM" →
      enc.embed_tokens.requiresGrad = true → enc.embed_tokens.grad = some g →
      ans < g.length →
      enc.lm_head.requiresGrad = true → enc.lm_head.grad = some g2 →
      ans < g2.length →
      maskLmHead true ans enc =
        .ok { enc with
          embed_tokens := { enc.embed_tokens with grad := some (zeroMaskApply ans 0 g) },
          lm_head := { enc.lm_head with grad := some (zeroMaskApply ans 0 g2) } }) ∧
    (enc.className ≠ "MPTForCausalLM" → enc.className ≠ "MosaicGPT" →
      enc.className ≠ "LlamaForCausalLM" →
      maskLmHead true ans enc = .ok enc) := by
  refine ⟨?_, ?_, ?_, ?_⟩
  · intro h
    have := zeroMaskApply_get? ans g 0 j row h
    simpa using this
  · intro hcls hrg hg hlt
    rw [maskLmHead, if_pos rfl, if_pos hcls, mask_embedding, if_pos hrg, hg]
    simp only [if_pos hlt]
    rfl
  · intro hcls hrg hg hlt hrg2 hg2 hlt2
    have hnot : ¬(enc.className = "MPTForCausalLM" ∨ enc.className = "MosaicGPT") := by
      rw [hcls]; simp
    rw [maskLmHead, if_pos rfl, if_neg hnot, if_pos hcls]
    rw [mask_embedding, if_pos hrg, hg]
    simp only [if_pos hlt]
    rw [mask_embedding, if_pos hrg2, hg2]
    simp only [if_pos hlt2]
    rfl
  · intro h1 h2 h3
    have hnot : ¬(enc.className = "MPTForCausalLM" ∨ enc.className = "MosaicGPT") := by
      simp [h1, h2]
    rw [maskLmHead, if_pos rfl, if_neg hnot, if_neg h3]

/-- A concrete three-row embedding gradient used by the C9 witness. -/
def gradEx : List (List ℚ) := [[1, 2], [3, 4], [5, 6]]

/-- A concrete MPT-family encoder used by the C9 witness. -/
def mptEncoderEx : LangEncoder :=
  { className := "MPTForCausalLM",
    wte := { requiresGrad := true, grad := some gradEx },
    embed_tokens := { requiresGrad := false, grad := none },
    lm_head := { requiresGrad := false, grad := none } }

/-- Witness for C9: a concrete MPT-family encoder with a three-row embedding
gradient and protected token id 1; row 1 is kept, rows 0 and 2 are zeroed. -/
theorem mask_lm_head_restricts_witness :
    (zeroMaskApply 1 0 gradEx).get? 0 =
      some (if 0 = 1 then ([1, 2] : List ℚ) else List.replicate 2 0) ∧
    maskLmHead true 1 mptEncoderEx =
      .ok { mptEncoderEx with
            wte := { mptEncoderEx.wte with grad := some (zeroMaskApply 1 0 gradEx) } } :=
  ⟨(mask_lm_head_restricts 1 0 mptEncoderEx gradEx [] [1, 2]).1 rfl,
   (mask_lm_head_restricts 1 0 mptEncoderEx gradEx [] [1, 2]).2.1 (Or.inl rfl) rfl rfl
     (by decide)⟩

end Otter
